import Mathlib

/-!
Verification development for the User Registry Service (src/server.js):
a minimal Express CRUD server over an in-memory list of user records.
The handlers are embedded shallowly as pure state-passing functions on
a `List User`; JavaScript loose equality between the path string and a
stored integer id is embedded through an executable model of the
ECMAScript string-to-number coercion.
-/

/-- A stored user record: the fields of the objects pushed onto
`users_list` in src/server.js. -/
structure User where
  id : Nat
  name : String
  email : String
deriving Repr, DecidableEq

/-- One field-level validation error, as produced by the express-validator
middleware: the location of the offending field (request body or path
params), the field name, and the human-readable message configured by
`withMessage` in src/server.js. -/
structure FieldError where
  location : String
  path : String
  msg : String
deriving Repr, DecidableEq

/-- The JSON responses the four handlers in src/server.js can produce:
201 with the created record, 200 with a record, 200 with a message object,
404 with a message object, or 400 with the validation error array. -/
inductive ApiResponse where
  | created (u : User)
  | ok (u : User)
  | okMsg (msg : String)
  | notFound (msg : String)
  | badRequest (errors : List FieldError)
deriving Repr, DecidableEq

/-- HTTP status code of each response: `res.status(201)` on create success,
`res.status(400)` on validation failure, `res.status(404)` on a missed
lookup, and Express's default 200 for a bare `res.json(...)`. -/
def status : ApiResponse → Nat
  | .created _ => 201
  | .ok _ => 200
  | .okMsg _ => 200
  | .notFound _ => 404
  | .badRequest _ => 400

/-- The validation error array carried by a 400 response (the `errors`
field the handlers send with `res.status(400)`), and the empty list for
every other response. -/
def errorsOf : ApiResponse → List FieldError
  | .badRequest es => es
  | _ => []

/-- Whitespace characters stripped by the ECMAScript StringToNumber
coercion and by the trim sanitizer: tab, line feed, vertical tab, form
feed, carriage return, space, no-break space and the BOM. Other rare
Unicode space code points are omitted; no input of the handlers'
contracts involves them. -/
def jsWhitespaceChar (c : Char) : Bool :=
  c = ' ' || c = '\t' || c = '\n' || c = '\r' || c = '\x0b' ||
  c = '\x0c' || c = '\u00A0' || c = '\uFEFF'

/-- The express-validator `trim()` sanitizer: strip leading and trailing
whitespace from a body field. The sanitizer rewrites the field on the
request, so the handler body later reads the trimmed value. -/
def jsTrim (s : String) : String :=
  ⟨((s.toList.dropWhile jsWhitespaceChar).reverse.dropWhile jsWhitespaceChar).reverse⟩

/-- Value of a list of decimal digit characters, most significant first. -/
def digitsVal (ds : List Char) : Nat :=
  ds.foldl (fun a c => 10 * a + (c.toNat - 48)) 0

/-- Parse the optional ExponentPart at the end of an ECMAScript decimal
literal; the remainder of the string must be exactly an exponent (or
empty), otherwise the whole literal is not a number. -/
def parseExpTail (cs : List Char) : Option Int :=
  match cs with
  | [] => some 0
  | c :: rest =>
    if c = 'e' ∨ c = 'E' then
      let sr : Int × List Char :=
        match rest with
        | '+' :: r => (1, r)
        | '-' :: r => (-1, r)
        | r => (1, r)
      let ds := sr.2.takeWhile (·.isDigit)
      let tail := sr.2.dropWhile (·.isDigit)
      if ds = [] ∨ tail ≠ [] then none
      else some (sr.1 * (digitsVal ds : Int))
    else none

/-- Parse an ECMAScript StrUnsignedDecimalLiteral (digits, optional
fraction, optional exponent). The result is an exact scaled decimal
`(m, k)` denoting the rational m / 10^k (see `decValue`). The literal
`Infinity` is mapped to `none` together with NaN: a stored integer id is
never loosely equal to either, so the handlers cannot distinguish them. -/
def parseUnsignedDec (cs : List Char) : Option (Int × Nat) :=
  if cs = "Infinity".toList then none
  else
    let ip := cs.takeWhile (·.isDigit)
    let rest1 := cs.dropWhile (·.isDigit)
    let mantissa : Option (Nat × Nat × List Char) :=
      match rest1 with
      | '.' :: rest2 =>
        let fp := rest2.takeWhile (·.isDigit)
        let rest3 := rest2.dropWhile (·.isDigit)
        if ip = [] ∧ fp = [] then none
        else some (digitsVal (ip ++ fp), fp.length, rest3)
      | _ =>
        if ip = [] then none else some (digitsVal ip, 0, rest1)
    match mantissa with
    | none => none
    | some (m, fl, rest) =>
      match parseExpTail rest with
      | none => none
      | some e =>
        let scale : Int := e - (fl : Int)
        if 0 ≤ scale then some ((m : Int) * (10 : Int) ^ scale.toNat, 0)
        else some ((m : Int), (-scale).toNat)

/-- Value of a hexadecimal digit character, or 16 for any other character
(so that it is rejected by every radix at most 16). -/
def hexVal (c : Char) : Nat :=
  if '0' ≤ c ∧ c ≤ '9' then c.toNat - 48
  else if 'a' ≤ c ∧ c ≤ 'f' then c.toNat - 87
  else if 'A' ≤ c ∧ c ≤ 'F' then c.toNat - 55
  else 16

/-- Parse a non-decimal integer literal body (after the 0x, 0o or 0b
marker) in the given radix. -/
def parseRadix (b : Nat) (cs : List Char) : Option (Int × Nat) :=
  if cs ≠ [] ∧ cs.all (fun c => hexVal c < b) then
    some (((cs.foldl (fun a c => b * a + hexVal c) 0 : Nat) : Int), 0)
  else none

/-- ECMAScript ToNumber on a string (the coercion performed by `==` when
src/server.js compares a stored integer id against `req.params.id`):
surrounding whitespace is ignored, the empty string is 0, then either a
0x/0o/0b integer literal or an optionally signed decimal literal with
optional fraction and exponent; anything else is NaN, here `none`
(`Infinity` is folded into `none` as well, see `parseUnsignedDec`).
The result `(m, k)` denotes the exact rational m / 10^k; float64
rounding is not modelled, which agrees with JavaScript on the small
integer ids the handlers compare. -/
def jsToNumber (s : String) : Option (Int × Nat) :=
  let cs0 := s.toList.dropWhile jsWhitespaceChar
  let cs := (cs0.reverse.dropWhile jsWhitespaceChar).reverse
  match cs with
  | [] => some (0, 0)
  | '0' :: c :: rest =>
    if c = 'x' ∨ c = 'X' then parseRadix 16 rest
    else if c = 'o' ∨ c = 'O' then parseRadix 8 rest
    else if c = 'b' ∨ c = 'B' then parseRadix 2 rest
    else parseUnsignedDec cs
  | '+' :: rest => parseUnsignedDec rest
  | '-' :: rest => (parseUnsignedDec rest).map (fun p => (-p.1, p.2))
  | _ => parseUnsignedDec cs

/-- The exact rational value denoted by a scaled decimal `(m, k)` produced
by `jsToNumber`: m / 10^k. -/
def decValue (p : Int × Nat) : ℚ :=
  (p.1 : ℚ) / (10 : ℚ) ^ p.2

/-- JavaScript loose equality `n == s` between a stored integer id and the
path string: the string is coerced to a number and compared; NaN compares
unequal to everything. The comparison m / 10^k = n is carried out as the
integer equation m = n * 10^k. -/
def jsEqNumStr (n : Nat) (s : String) : Bool :=
  match jsToNumber s with
  | some (m, k) => decide (m = (n : Int) * (10 : Int) ^ k)
  | none => false

/-- The predicate `u => u.id == req.params.id` used by `find` / `findIndex`
in the read, update and delete handlers of src/server.js. -/
def matchesId (idStr : String) (u : User) : Bool :=
  jsEqNumStr u.id idStr

/-- The express-validator `param('id').isInt()` check used by the update
handler: an optional sign followed by one or more decimal digits (leading
zeroes are allowed by validator.js's default options). -/
def isIntStr (s : String) : Bool :=
  let cs := s.toList
  let ds := match cs with
    | '+' :: r => r
    | '-' :: r => r
    | r => r
  !ds.isEmpty && ds.all (·.isDigit)

/-- Modelled from the spec: the email-syntax predicate delegated to the
external validation collaborator (express-validator's `isEmail`, a
third-party library not in src/). The claim theorems quantify over an
arbitrary predicate; this concrete instance — exactly one `@` separating a
non-empty local part from a non-empty domain containing a dot — only
instantiates witnesses and counterexamples on addresses such as
"ann@x.com" where any email-syntax check agrees. -/
def specIsEmail (s : String) : Bool :=
  let cs := s.toList
  let lp := cs.takeWhile (fun c => ¬ (c = '@'))
  let rest := cs.dropWhile (fun c => ¬ (c = '@'))
  match rest with
  | '@' :: dp => !lp.isEmpty && !dp.isEmpty && dp.contains '.' && !dp.contains '@'
  | _ => false

/-- The POST /users handler (src/server.js lines 59-76): validate `name`
(the `trim()` sanitizer rewrites the body field before the handler reads
it, then `notEmpty`) and `email` (`isEmail`, abstracted as the parameter
`isEmail`); on failure respond 400 with the error array; on success
append a record with id `users_list.length + 1` and respond 201 with it. -/
def createUser (isEmail : String → Bool) (st : List User) (name email : String) :
    ApiResponse × List User :=
  let errs :=
    (if jsTrim name = "" then [FieldError.mk "body" "name" "Name is required"] else [])
    ++ (if isEmail email then [] else [FieldError.mk "body" "email" "Valid email is required"])
  if errs = [] then
    let newUser : User := ⟨st.length + 1, jsTrim name, email⟩
    (ApiResponse.created newUser, st ++ [newUser])
  else (ApiResponse.badRequest errs, st)

/-- The GET /users/:id handler (src/server.js lines 96-102): linear scan
with loose equality; 200 with the first matching record, else 404. The
collection is returned unchanged in the pair to state frame properties. -/
def readUser (st : List User) (idStr : String) : ApiResponse × List User :=
  match List.find? (matchesId idStr) st with
  | some u => (ApiResponse.ok u, st)
  | none => (ApiResponse.notFound "User is not found", st)

/-- In-place mutation of the first record satisfying `p` (the object
reference returned by `users_list.find` having its `name` and `email`
fields assigned): returns the updated record and the updated list, or
`none` when no record matches. -/
def updateFirst (p : User → Bool) (name email : String) :
    List User → Option (User × List User)
  | [] => none
  | u :: rest =>
    if p u then
      some (⟨u.id, name, email⟩, ⟨u.id, name, email⟩ :: rest)
    else
      match updateFirst p name email rest with
      | none => none
      | some (v, rest') => some (v, u :: rest')

/-- The PUT /users/:id handler (src/server.js lines 129-151): validate the
path id (`isInt`), `name` (trim sanitizer + `notEmpty`) and `email`; on
failure 400 with the error array; then loose-equality lookup, 404 when
absent; on success assign `name` and `email` on the matched record (the
id field is untouched) and respond 200 with it. -/
def updateUser (isEmail : String → Bool) (st : List User) (idStr name email : String) :
    ApiResponse × List User :=
  let errs :=
    (if isIntStr idStr then [] else [FieldError.mk "params" "id" "ID should be an integer"])
    ++ (if jsTrim name = "" then [FieldError.mk "body" "name" "Name is mandatory"] else [])
    ++ (if isEmail email then [] else [FieldError.mk "body" "email" "Valid email is required"])
  if errs = [] then
    match updateFirst (matchesId idStr) (jsTrim name) email st with
    | some (u, st') => (ApiResponse.ok u, st')
    | none => (ApiResponse.notFound "User is not found", st)
  else (ApiResponse.badRequest errs, st)

/-- The DELETE /users/:id handler (src/server.js lines 170-178):
`findIndex` with loose equality, 404 when absent, otherwise
`splice(userIndex, 1)` and 200 with the deletion message. -/
def deleteUser (st : List User) (idStr : String) : ApiResponse × List User :=
  match List.findIdx? (matchesId idStr) st with
  | some i => (ApiResponse.okMsg "User is deleted", st.eraseIdx i)
  | none => (ApiResponse.notFound "User is not found", st)

/-- One state-changing API request: the three operations of src/server.js
that can mutate `users_list` (GET never does). -/
inductive Op where
  | create (name email : String)
  | update (idStr name email : String)
  | del (idStr : String)
deriving Repr, DecidableEq

/-- Post-state of one operation applied to a collection state. -/
def applyOp (isEmail : String → Bool) (st : List User) : Op → List User
  | .create n e => (createUser isEmail st n e).2
  | .update i n e => (updateUser isEmail st i n e).2
  | .del i => (deleteUser st i).2

/-- State reached from the initial empty `users_list` by a sequence of
operations. -/
def runOps (isEmail : String → Bool) (ops : List Op) : List User :=
  ops.foldl (applyOp isEmail) []

/-- The delete-then-create request sequence from the spec's §9 note:
create Ann, create Bo, delete id 1, create Cy. -/
def dupOps : List Op :=
  [Op.create "Ann" "ann@x.com", Op.create "Bo" "bo@x.com",
   Op.del "1", Op.create "Cy" "cy@x.com"]

/-- The collection state reached by `dupOps`. -/
def dupState : List User :=
  runOps specIsEmail dupOps

/-- Scanning a list whose prefix fails the predicate finds the first
matching element. -/
theorem find?_first (p : User → Bool) (pre post : List User) (u : User)
    (hpre : ∀ v ∈ pre, p v = false) (hu : p u = true) :
    List.find? p (pre ++ u :: post) = some u := by
  induction pre with
  | nil => simpa using List.find?_cons_of_pos post hu
  | cons a l ih =>
    have ha : p a = false := hpre a (by simp)
    rw [List.cons_append, List.find?_cons_of_neg _ (by simp [ha])]
    exact ih (fun v hv => hpre v (by simp [hv]))

/-- Index-scanning version of `find?_first`, generalized over the running
index of `List.findIdx?`. -/
theorem findIdx?_first_from (p : User → Bool) (pre post : List User) (u : User)
    (hpre : ∀ v ∈ pre, p v = false) (hu : p u = true) :
    ∀ i, List.findIdx? p (pre ++ u :: post) i = some (i + pre.length) := by
  induction pre with
  | nil => intro i; simp [List.findIdx?_cons, hu]
  | cons a l ih =>
    intro i
    have ha : p a = false := hpre a (by simp)
    rw [List.cons_append, List.findIdx?_cons]
    rw [if_neg (by simp [ha])]
    rw [ih (fun v hv => hpre v (by simp [hv])) (i + 1)]
    congr 1
    simp
    omega

/-- The first matching index in a list whose prefix fails the predicate is
the length of that prefix. -/
theorem findIdx?_first (p : User → Bool) (pre post : List User) (u : User)
    (hpre : ∀ v ∈ pre, p v = false) (hu : p u = true) :
    List.findIdx? p (pre ++ u :: post) = some pre.length := by
  simpa using findIdx?_first_from p pre post u hpre hu 0

/-- Erasing the element at the index right after a prefix removes exactly
that element and keeps the order of the rest. -/
theorem eraseIdx_append_len (pre post : List User) (u : User) :
    (pre ++ u :: post).eraseIdx pre.length = pre ++ post := by
  induction pre with
  | nil => simp [List.eraseIdx]
  | cons a l ih => simpa [List.eraseIdx] using ih

/-- `updateFirst` on a list whose prefix fails the predicate rewrites the
first matching record in place and leaves everything else untouched. -/
theorem updateFirst_app (p : User → Bool) (nm em : String) (pre post : List User)
    (u : User) (hpre : ∀ v ∈ pre, p v = false) (hu : p u = true) :
    updateFirst p nm em (pre ++ u :: post)
      = some (⟨u.id, nm, em⟩, pre ++ ⟨u.id, nm, em⟩ :: post) := by
  induction pre with
  | nil => simp [updateFirst, hu]
  | cons a l ih =>
    have ha : p a = false := hpre a (by simp)
    rw [List.cons_append, updateFirst, if_neg (by simp [ha])]
    rw [ih (fun v hv => hpre v (by simp [hv]))]
    simp

/-- C1: the id-uniqueness invariant does NOT hold in every reachable
state. Evidence for the code bug the spec's §9 note describes: after
create Ann (id 1), create Bo (id 2), delete id 1, create Cy, the fourth
create assigns id `length + 1 = 2` again, so the reachable state stores
two users with id 2 — the stored ids are not pairwise distinct. -/
theorem C1_id_collision :
    dupState.map User.id = [2, 2] ∧ ¬ (dupState.map User.id).Nodup := by
  constructor
  · decide
  · decide

/-- C2: for every collection state and every create request whose name is
non-empty after trimming and whose email passes the email-syntax check,
create responds 201 with the record whose id is the pre-call collection
size plus one (name as read from the sanitized body, i.e. trimmed), and
the post-state is the pre-state with exactly that record appended. -/
theorem C2_create_success (isEmail : String → Bool) (st : List User) (name email : String)
    (hname : jsTrim name ≠ "") (hemail : isEmail email = true) :
    createUser isEmail st name email
      = (ApiResponse.created ⟨st.length + 1, jsTrim name, email⟩,
         st ++ [⟨st.length + 1, jsTrim name, email⟩]) := by
  simp [createUser, hname, hemail]

/-- Witness for C2 at a concrete input. -/
theorem C2_create_success_witness :
    createUser specIsEmail [] "Ann" "ann@x.com"
      = (ApiResponse.created ⟨1, "Ann", "ann@x.com"⟩, [⟨1, "Ann", "ann@x.com"⟩]) := by
  exact C2_create_success specIsEmail [] "Ann" "ann@x.com" (by decide) (by decide)

/-- C3: error atomicity — for each of the four operations, whenever the
response is a 400 validation error or a 404 not-found, the post-state
collection equals the pre-state collection (the read never changes the
collection at all). -/
theorem C3_error_atomicity (isEmail : String → Bool) (st : List User)
    (idStr name email : String) :
    (status (createUser isEmail st name email).1 = 400 ∨
       status (createUser isEmail st name email).1 = 404 →
      (createUser isEmail st name email).2 = st)
  ∧ (readUser st idStr).2 = st
  ∧ (status (updateUser isEmail st idStr name email).1 = 400 ∨
       status (updateUser isEmail st idStr name email).1 = 404 →
      (updateUser isEmail st idStr name email).2 = st)
  ∧ (status (deleteUser st idStr).1 = 400 ∨ status (deleteUser st idStr).1 = 404 →
      (deleteUser st idStr).2 = st) := by
  refine ⟨?_, ?_, ?_, ?_⟩
  · intro h
    by_cases h1 : jsTrim name = "" <;> by_cases h2 : isEmail email = true <;>
      simp [createUser, h1, h2, status] at h ⊢
  · simp only [readUser]
    rcases hf : List.find? (matchesId idStr) st with _ | u <;> simp [hf]
  · intro h
    by_cases h1 : isIntStr idStr = true <;> by_cases h2 : jsTrim name = "" <;>
      by_cases h3 : isEmail email = true
    all_goals
      first
      | (simp [updateUser, h1, h2, h3, status] at h ⊢
         rcases hf : updateFirst (matchesId idStr) (jsTrim name) email st with _ | ⟨v, st'⟩ <;>
           simp [hf, status] at h ⊢)
      | simp [updateUser, h1, h2, h3, status] at h ⊢
  · intro h
    simp only [deleteUser] at h ⊢
    rcases hf : List.findIdx? (matchesId idStr) st with _ | i <;>
      simp [hf, status] at h ⊢

/-- Witness for C3 at concrete error-producing inputs: a 400 create (empty
name), a 400 update (empty name) and a 404 delete (unmatched id), each
leaving the collection unchanged. -/
theorem C3_error_atomicity_witness :
    (createUser specIsEmail [⟨1, "Ann", "ann@x.com"⟩] "" "x").2 = [⟨1, "Ann", "ann@x.com"⟩]
  ∧ (updateUser specIsEmail [⟨1, "Ann", "ann@x.com"⟩] "9" "" "x").2 = [⟨1, "Ann", "ann@x.com"⟩]
  ∧ (deleteUser [⟨1, "Ann", "ann@x.com"⟩] "9").2 = [⟨1, "Ann", "ann@x.com"⟩] := by
  have h := C3_error_atomicity specIsEmail [⟨1, "Ann", "ann@x.com"⟩] "9" "" "x"
  exact ⟨h.1 (Or.inl (by decide)), h.2.2.1 (Or.inl (by decide)), h.2.2.2 (Or.inr (by decide))⟩

/-- C4: for a collection whose first record matching the path id is `u`,
an update with a valid integer path id, a name non-empty after trimming
and a valid email responds 200 with the record keeping `u`'s id and
carrying the (sanitized) body name and email; all other records, the
length and the order are unchanged, and a subsequent read of that id
returns the new values. -/
theorem C4_update_success (isEmail : String → Bool) (pre post : List User) (u : User)
    (idStr name email : String)
    (hint : isIntStr idStr = true) (hname : jsTrim name ≠ "") (hemail : isEmail email = true)
    (hpre : ∀ v ∈ pre, matchesId idStr v = false) (hu : matchesId idStr u = true) :
    updateUser isEmail (pre ++ u :: post) idStr name email
      = (ApiResponse.ok ⟨u.id, jsTrim name, email⟩,
         pre ++ ⟨u.id, jsTrim name, email⟩ :: post)
  ∧ (readUser (pre ++ ⟨u.id, jsTrim name, email⟩ :: post) idStr).1
      = ApiResponse.ok ⟨u.id, jsTrim name, email⟩ := by
  have hm : matchesId idStr (⟨u.id, jsTrim name, email⟩ : User) = true := hu
  constructor
  · have hup := updateFirst_app (matchesId idStr) (jsTrim name) email pre post u hpre hu
    simp [updateUser, hint, hname, hemail, hup]
  · have hfind := find?_first (matchesId idStr) pre post ⟨u.id, jsTrim name, email⟩ hpre hm
    simp [readUser, hfind]

/-- Witness for C4 at a concrete input. -/
theorem C4_update_success_witness :
    updateUser specIsEmail [⟨1, "Ann", "ann@x.com"⟩] "1" "New" "new@x.com"
      = (ApiResponse.ok ⟨1, "New", "new@x.com"⟩, [⟨1, "New", "new@x.com"⟩])
  ∧ (readUser [⟨1, "New", "new@x.com"⟩] "1").1 = ApiResponse.ok ⟨1, "New", "new@x.com"⟩ := by
  have h := C4_update_success specIsEmail [] [] ⟨1, "Ann", "ann@x.com"⟩ "1" "New" "new@x.com"
    (by decide) (by decide) (by decide) (by simp) (by decide)
  simpa using h

/-- C5 counterexample: on the reachable duplicate-id state `dupState`
(both stored users have id 2), deleting id 2 succeeds and then a second
delete of the same id, with no intervening create, succeeds again with
200 instead of responding 404 as the claim states. -/
theorem C5_second_delete_counterexample :
    status (deleteUser dupState "2").1 = 200
  ∧ status (deleteUser (deleteUser dupState "2").2 "2").1 = 200
  ∧ (deleteUser (deleteUser dupState "2").2 "2").1
      ≠ ApiResponse.notFound "User is not found" := by
  refine ⟨by decide, by decide, by decide⟩

/-- C5 (amended): deleting an id whose first match is `u` responds 200
with the deletion message and removes exactly that record, preserving the
order of the rest; and provided no OTHER stored record matches the same
id, a second delete of that id responds 404 and changes nothing. -/
theorem C5_delete_removes_first (pre post : List User) (u : User) (idStr : String)
    (hpre : ∀ v ∈ pre, matchesId idStr v = false) (hu : matchesId idStr u = true)
    (hpost : ∀ v ∈ post, matchesId idStr v = false) :
    deleteUser (pre ++ u :: post) idStr = (ApiResponse.okMsg "User is deleted", pre ++ post)
  ∧ deleteUser (pre ++ post) idStr = (ApiResponse.notFound "User is not found", pre ++ post) := by
  constructor
  · have hidx := findIdx?_first (matchesId idStr) pre post u hpre hu
    simp [deleteUser, hidx, eraseIdx_append_len]
  · have hnone : List.findIdx? (matchesId idStr) (pre ++ post) = none := by
      rw [List.findIdx?_eq_none_iff]
      intro v hv
      rcases List.mem_append.mp hv with h | h
      · exact hpre v h
      · exact hpost v h
    simp [deleteUser, hnone]

/-- Witness for the amended C5 at a concrete input. -/
theorem C5_delete_removes_first_witness :
    deleteUser [⟨1, "Ann", "ann@x.com"⟩, ⟨2, "Bo", "bo@x.com"⟩] "2"
      = (ApiResponse.okMsg "User is deleted", [⟨1, "Ann", "ann@x.com"⟩])
  ∧ deleteUser [⟨1, "Ann", "ann@x.com"⟩] "2"
      = (ApiResponse.notFound "User is not found", [⟨1, "Ann", "ann@x.com"⟩]) := by
  have h := C5_delete_removes_first [⟨1, "Ann", "ann@x.com"⟩] [] ⟨2, "Bo", "bo@x.com"⟩ "2"
    (by decide) (by decide) (by simp)
  simpa using h

/-- C6: a create whose name is empty after trimming or whose email fails
the email-syntax check responds 400, appends nothing, and the error array
references each failing field. -/
theorem C6_create_validation (isEmail : String → Bool) (st : List User) (name email : String)
    (h : jsTrim name = "" ∨ isEmail email = false) :
    status (createUser isEmail st name email).1 = 400
  ∧ (createUser isEmail st name email).2 = st
  ∧ (jsTrim name = "" →
      FieldError.mk "body" "name" "Name is required"
        ∈ errorsOf (createUser isEmail st name email).1)
  ∧ (isEmail email = false →
      FieldError.mk "body" "email" "Valid email is required"
        ∈ errorsOf (createUser isEmail st name email).1) := by
  rcases h with h | h
  · by_cases h2 : isEmail email = true <;> simp [createUser, h, h2, status, errorsOf]
  · by_cases h1 : jsTrim name = "" <;> simp [createUser, h1, h, status, errorsOf]

/-- Witness for C6 at a concrete input failing both checks. -/
theorem C6_create_validation_witness :
    status (createUser specIsEmail [] "   " "x").1 = 400
  ∧ (createUser specIsEmail [] "   " "x").2 = []
  ∧ (jsTrim "   " = "" →
      FieldError.mk "body" "name" "Name is required"
        ∈ errorsOf (createUser specIsEmail [] "   " "x").1)
  ∧ (specIsEmail "x" = false →
      FieldError.mk "body" "email" "Valid email is required"
        ∈ errorsOf (createUser specIsEmail [] "   " "x").1) :=
  C6_create_validation specIsEmail [] "   " "x" (Or.inl (by decide))

/-- C7: the read operation is the linear loose-equality scan — when the
scan finds a first matching record it responds 200 with exactly that
record, when it finds none it responds 404 with the exact message, and
the 404 happens if and only if no stored record's id loosely equals the
path value. -/
theorem C7_read_lookup (st : List User) (idStr : String) :
    (∀ u, List.find? (matchesId idStr) st = some u →
      readUser st idStr = (ApiResponse.ok u, st))
  ∧ (List.find? (matchesId idStr) st = none →
      readUser st idStr = (ApiResponse.notFound "User is not found", st))
  ∧ ((readUser st idStr).1 = ApiResponse.notFound "User is not found" ↔
      ∀ u ∈ st, matchesId idStr u = false) := by
  refine ⟨fun u hu => by simp [readUser, hu], fun hn => by simp [readUser, hn], ?_⟩
  rcases hf : List.find? (matchesId idStr) st with _ | u
  · have hall := List.find?_eq_none.mp hf
    simp only [readUser, hf]
    constructor
    · intro _ v hv
      simpa using hall v hv
    · intro _
      trivial
  · have h1 := List.find?_some hf
    have h2 := List.mem_of_find?_eq_some hf
    simp only [readUser, hf]
    constructor
    · intro hbad
      cases hbad
    · intro hall
      rw [hall u h2] at h1
      cases h1

/-- Witness for C7 at concrete inputs: a matching and a non-matching
lookup. -/
theorem C7_read_lookup_witness :
    readUser [⟨1, "Ann", "ann@x.com"⟩] "1"
      = (ApiResponse.ok ⟨1, "Ann", "ann@x.com"⟩, [⟨1, "Ann", "ann@x.com"⟩])
  ∧ readUser [⟨1, "Ann", "ann@x.com"⟩] "9"
      = (ApiResponse.notFound "User is not found", [⟨1, "Ann", "ann@x.com"⟩]) :=
  ⟨(C7_read_lookup [⟨1, "Ann", "ann@x.com"⟩] "1").1 ⟨1, "Ann", "ann@x.com"⟩ (by decide),
   (C7_read_lookup [⟨1, "Ann", "ann@x.com"⟩] "9").2.1 (by decide)⟩

/-- C8 counterexample: "1e0" is rejected by the update path's integer
validation, yet the read of "1e0" on a collection storing id 1 responds
200 (the string coerces to 1), not 404 as the claim asserts for every
collection state. -/
theorem C8_pathid_counterexample :
    isIntStr "1e0" = false
  ∧ status (readUser [⟨1, "Ann", "ann@x.com"⟩] "1e0").1 = 200
  ∧ (readUser [⟨1, "Ann", "ann@x.com"⟩] "1e0").1 ≠ ApiResponse.notFound "User is not found" := by
  refine ⟨by decide, by decide, by decide⟩

/-- C8 (amended): a non-integer path id makes the update respond 400 with
a params/id validation error and leave the collection untouched,
regardless of body validity or of any matching record; the read and the
delete never respond 400, and they respond 404 exactly when no stored
record's id loosely equals the path value (a coercively matching record
still yields 200). -/
theorem C8_pathid_validation (isEmail : String → Bool) (st : List User)
    (idStr name email : String) (h : isIntStr idStr = false) :
    (status (updateUser isEmail st idStr name email).1 = 400
      ∧ (updateUser isEmail st idStr name email).2 = st
      ∧ FieldError.mk "params" "id" "ID should be an integer"
          ∈ errorsOf (updateUser isEmail st idStr name email).1)
  ∧ status (readUser st idStr).1 ≠ 400
  ∧ status (deleteUser st idStr).1 ≠ 400
  ∧ ((∀ u ∈ st, matchesId idStr u = false) →
      readUser st idStr = (ApiResponse.notFound "User is not found", st)
      ∧ deleteUser st idStr = (ApiResponse.notFound "User is not found", st)) := by
  refine ⟨?_, ?_, ?_, ?_⟩
  · by_cases h2 : jsTrim name = "" <;> by_cases h3 : isEmail email = true <;>
      simp [updateUser, h, h2, h3, status, errorsOf]
  · simp only [readUser]
    rcases hf : List.find? (matchesId idStr) st with _ | u <;> simp [hf, status]
  · simp only [deleteUser]
    rcases hf : List.findIdx? (matchesId idStr) st with _ | i <;> simp [hf, status]
  · intro hall
    have hf : List.find? (matchesId idStr) st = none :=
      List.find?_eq_none.mpr (fun x hx => by simp [hall x hx])
    have hfi : List.findIdx? (matchesId idStr) st = none :=
      List.findIdx?_eq_none_iff.mpr hall
    exact ⟨by simp [readUser, hf], by simp [deleteUser, hfi]⟩

/-- Witness for the amended C8 at a concrete input. -/
theorem C8_pathid_validation_witness :
    (status (updateUser specIsEmail [⟨1, "Ann", "ann@x.com"⟩] "abc" "New" "new@x.com").1 = 400
      ∧ (updateUser specIsEmail [⟨1, "Ann", "ann@x.com"⟩] "abc" "New" "new@x.com").2
          = [⟨1, "Ann", "ann@x.com"⟩]
      ∧ FieldError.mk "params" "id" "ID should be an integer"
          ∈ errorsOf (updateUser specIsEmail [⟨1, "Ann", "ann@x.com"⟩] "abc" "New" "new@x.com").1)
  ∧ readUser [⟨1, "Ann", "ann@x.com"⟩] "abc"
      = (ApiResponse.notFound "User is not found", [⟨1, "Ann", "ann@x.com"⟩])
  ∧ deleteUser [⟨1, "Ann", "ann@x.com"⟩] "abc"
      = (ApiResponse.notFound "User is not found", [⟨1, "Ann", "ann@x.com"⟩]) := by
  have h := C8_pathid_validation specIsEmail [⟨1, "Ann", "ann@x.com"⟩] "abc" "New" "new@x.com"
    (by decide)
  exact ⟨h.1, (h.2.2.2 (by decide)).1, (h.2.2.2 (by decide)).2⟩

/-- Bridge lemma: when the path string coerces to the exact rational value
of the integer id, loose equality holds. -/
theorem jsEq_of_decValue (n : Nat) (s : String) (p : Int × Nat)
    (hp : jsToNumber s = some p) (hv : decValue p = (n : ℚ)) :
    jsEqNumStr n s = true := by
  obtain ⟨m, k⟩ := p
  have h10 : ((10 : ℚ) ^ k) ≠ 0 := pow_ne_zero _ (by norm_num)
  simp only [decValue] at hv
  have hq : (m : ℚ) = (n : ℚ) * (10 : ℚ) ^ k := (div_eq_iff h10).mp hv
  have hi : m = (n : Int) * (10 : Int) ^ k := by exact_mod_cast hq
  simp [jsEqNumStr, hp, hi]

/-- C9 counterexample: the path string "1e0" coerces to the stored id 1,
and the claim says the update operation therefore treats it as matching —
but the update's isInt validation rejects it first, responding 400 with
the collection (and the record with id 1) unchanged. -/
theorem C9_coercion_counterexample :
    jsToNumber "1e0" = some (1, 0)
  ∧ status (updateUser specIsEmail [⟨1, "Ann", "ann@x.com"⟩] "1e0" "New" "new@x.com").1 = 400
  ∧ (updateUser specIsEmail [⟨1, "Ann", "ann@x.com"⟩] "1e0" "New" "new@x.com").2
      = [⟨1, "Ann", "ann@x.com"⟩] := by
  refine ⟨by decide, by decide, by decide⟩

/-- C9 (amended): any path string whose numeric coercion equals the stored
integer id n is treated as matching by the read and delete operations
(e.g. "01", " 1", "1e0" for id 1); the update treats it as matching only
when the string additionally passes the isInt path validation (such as
"01"), and otherwise responds 400 before any lookup. -/
theorem C9_coercive_match (s : String) (n : Nat) (u : User) (st : List User)
    (p : Int × Nat) (hid : u.id = n)
    (hp : jsToNumber s = some p) (hv : decValue p = (n : ℚ)) :
    matchesId s u = true
  ∧ (readUser (u :: st) s).1 = ApiResponse.ok u
  ∧ deleteUser (u :: st) s = (ApiResponse.okMsg "User is deleted", st)
  ∧ (∀ isEmail name email, isIntStr s = true → jsTrim name ≠ "" →
      isEmail email = true →
      updateUser isEmail (u :: st) s name email
        = (ApiResponse.ok ⟨u.id, jsTrim name, email⟩, ⟨u.id, jsTrim name, email⟩ :: st))
  ∧ (∀ isEmail name email, isIntStr s = false →
      status (updateUser isEmail (u :: st) s name email).1 = 400) := by
  have hm : matchesId s u = true := by
    have := jsEq_of_decValue n s p hp hv
    simpa [matchesId, hid] using this
  refine ⟨hm, ?_, ?_, ?_, ?_⟩
  · have hfind := find?_first (matchesId s) [] st u (by simp) hm
    simp only [List.nil_append] at hfind
    simp [readUser, hfind]
  · have hidx := findIdx?_first (matchesId s) [] st u (by simp) hm
    simp only [List.nil_append, List.length_nil] at hidx
    simp [deleteUser, hidx, List.eraseIdx]
  · intro isEmail name email h1 h2 h3
    have hup := updateFirst_app (matchesId s) (jsTrim name) email [] st u (by simp) hm
    simp only [List.nil_append] at hup
    simp [updateUser, h1, h2, h3, hup]
  · intro isEmail name email h1
    by_cases h2 : jsTrim name = "" <;> by_cases h3 : isEmail email = true <;>
      simp [updateUser, h1, h2, h3, status]

/-- Witness for the amended C9: "01", " 1" and "1e0" all coerce to 1 and
match the stored id 1 in the read and delete operations, and "01" (which
passes isInt) matches in the update. -/
theorem C9_coercive_match_witness :
    (readUser [⟨1, "Ann", "ann@x.com"⟩] "01").1 = ApiResponse.ok ⟨1, "Ann", "ann@x.com"⟩
  ∧ (readUser [⟨1, "Ann", "ann@x.com"⟩] " 1").1 = ApiResponse.ok ⟨1, "Ann", "ann@x.com"⟩
  ∧ deleteUser [⟨1, "Ann", "ann@x.com"⟩] "1e0" = (ApiResponse.okMsg "User is deleted", [])
  ∧ updateUser specIsEmail [⟨1, "Ann", "ann@x.com"⟩] "01" "New" "new@x.com"
      = (ApiResponse.ok ⟨1, "New", "new@x.com"⟩, [⟨1, "New", "new@x.com"⟩]) := by
  have h01 := C9_coercive_match "01" 1 ⟨1, "Ann", "ann@x.com"⟩ [] (1, 0) rfl
    (by decide) (by norm_num [decValue])
  have hsp := C9_coercive_match " 1" 1 ⟨1, "Ann", "ann@x.com"⟩ [] (1, 0) rfl
    (by decide) (by norm_num [decValue])
  have hex := C9_coercive_match "1e0" 1 ⟨1, "Ann", "ann@x.com"⟩ [] (1, 0) rfl
    (by decide) (by norm_num [decValue])
  refine ⟨h01.2.1, hsp.2.1, hex.2.2.1, ?_⟩
  have := h01.2.2.2.1 specIsEmail "New" "new@x.com" (by decide) (by decide) (by decide)
  simpa using this

/-- C10: when the first record matching the path id is `u` (every earlier
record fails the loose-equality match) and a later duplicate of `u`'s id
is stored, the read responds with `u`, the update rewrites exactly `u`,
and the delete removes exactly `u` — the later duplicates stay stored and
untouched in their positions. -/
theorem C10_first_match_semantics (pre post : List User) (u : User) (idStr : String)
    (hpre : ∀ v ∈ pre, matchesId idStr v = false) (hu : matchesId idStr u = true)
    (_hdup : ∃ v ∈ post, v.id = u.id) :
    (readUser (pre ++ u :: post) idStr).1 = ApiResponse.ok u
  ∧ deleteUser (pre ++ u :: post) idStr = (ApiResponse.okMsg "User is deleted", pre ++ post)
  ∧ (∀ isEmail name email, isIntStr idStr = true → jsTrim name ≠ "" →
      isEmail email = true →
      updateUser isEmail (pre ++ u :: post) idStr name email
        = (ApiResponse.ok ⟨u.id, jsTrim name, email⟩,
           pre ++ ⟨u.id, jsTrim name, email⟩ :: post)) := by
  refine ⟨?_, ?_, ?_⟩
  · simp [readUser, find?_first (matchesId idStr) pre post u hpre hu]
  · simp [deleteUser, findIdx?_first (matchesId idStr) pre post u hpre hu, eraseIdx_append_len]
  · intro isEmail name email h1 h2 h3
    simp [updateUser, h1, h2, h3,
      updateFirst_app (matchesId idStr) (jsTrim name) email pre post u hpre hu]

/-- Witness for C10 on the duplicate-id state reachable by `dupOps`: both
records have id 2; read returns the earlier one, update rewrites the
earlier one, delete removes the earlier one and keeps the later one. -/
theorem C10_first_match_semantics_witness :
    (readUser [⟨2, "Bo", "bo@x.com"⟩, ⟨2, "Cy", "cy@x.com"⟩] "2").1
      = ApiResponse.ok ⟨2, "Bo", "bo@x.com"⟩
  ∧ deleteUser [⟨2, "Bo", "bo@x.com"⟩, ⟨2, "Cy", "cy@x.com"⟩] "2"
      = (ApiResponse.okMsg "User is deleted", [⟨2, "Cy", "cy@x.com"⟩])
  ∧ updateUser specIsEmail [⟨2, "Bo", "bo@x.com"⟩, ⟨2, "Cy", "cy@x.com"⟩] "2" "New" "new@x.com"
      = (ApiResponse.ok ⟨2, "New", "new@x.com"⟩,
         [⟨2, "New", "new@x.com"⟩, ⟨2, "Cy", "cy@x.com"⟩]) := by
  have h := C10_first_match_semantics [] [⟨2, "Cy", "cy@x.com"⟩] ⟨2, "Bo", "bo@x.com"⟩ "2"
    (by simp) (by decide) (by decide)
  refine ⟨by simpa using h.1, by simpa using h.2.1, ?_⟩
  have := h.2.2 specIsEmail "New" "new@x.com" (by decide) (by decide) (by decide)
  simpa using this
